import Mathlib

/-!
Shallow embedding of the wb-mcp-server repository (a Wildberries MCP server).

Source files embedded:
- `src/wb-client.js` (the unnamed client file): the `WBClient` class — search
  extraction over rendered DOM cards, descriptor-based price backfill, product
  detail assembly, multi-product list, destination (geo zone) state, filters.
- the HTTP transport file: JSON-RPC request handling for the `/mcp` endpoint
  (batching, response ordering, session issuance).
- `src/index.js`: the tool dispatcher (argument defaulting and clamping).

Modelling conventions:
- Network and DOM effects are passed in as explicit inputs (oracles): the
  rendered card list, descriptor responses, the per-basket content-descriptor
  responses, and the geo lookup outcome. A response of `none` / `.error`
  stands for a failed or falsy outcome, matching how the source treats it.
- JS numbers that carry prices are modelled as rationals; JS truthiness of a
  nullable number is "present and nonzero"; truthiness of a nullable string is
  "present and nonempty".
- Fallible code paths (`throw`) are modelled with `Except`.
- Presentation-only fields that no verified property mentions
  (`priceFormatted`, per-size stock lists, delivery-time strings, supplier and
  rating pass-through fields, the fixed sort-option and url-parameter tables)
  are elided from the records; every field a claim touches is embedded.
-/

namespace WB

/-! ### JS value helpers -/

/-- Truthiness of a nullable JS number: `null`/`undefined` and `0` are falsy. -/
def jsTruthyQ : Option ℚ → Bool
  | none => false
  | some x => if x = 0 then false else true

/-- Truthiness of a nullable JS string: `null`/`undefined` and `""` are falsy. -/
def jsTruthyStr : Option String → Bool
  | none => false
  | some s => if s = "" then false else true

/-- JS `x || d` for a nullable number `x`. -/
def jsOrQ (o : Option ℚ) (d : ℚ) : ℚ :=
  match o with
  | some x => if x = 0 then d else x
  | none => d

/-- JS `x || d` for a nullable natural number `x` (numeric tool argument). -/
def jsOrNat (o : Option Nat) (d : Nat) : Nat :=
  match o with
  | some x => if x = 0 then d else x
  | none => d

/-- JS `x || d` for a nullable string `x`. -/
def jsOrStr (o : Option String) (d : String) : String :=
  match o with
  | some s => if s = "" then d else s
  | none => d

/-- JS `x || null` for a nullable string: an empty string collapses to null. -/
def jsOrNullStr (o : Option String) : Option String :=
  match o with
  | some s => if s = "" then none else some s
  | none => none

/-! ### DOM price-text parsing (wb-client.js, search page evaluate) -/

/-- Characters the source regex class `\s` accepts in a price run (the
rendered price groups digits with spaces / no-break spaces). -/
def jsSpace (c : Char) : Bool :=
  c = ' ' || c = '\t' || c = '\n' || c = '\r' || c = ' '

/-- JS `String.prototype.trim`: strip whitespace from both ends. Defined
structurally over the character list (the builtin `String.trim` does not
reduce definitionally). -/
def jsTrim (s : String) : String :=
  String.mk (((s.data.dropWhile (fun c => c.isWhitespace || jsSpace c)).reverse.dropWhile
    (fun c => c.isWhitespace || jsSpace c)).reverse)

/-- Successive matches of the global regex `(\d[\d\s]*)` over the character
list: a match starts at a digit and greedily extends over digits and spaces;
scanning resumes after each match. Fuel-structured so it evaluates by `rfl`. -/
def priceRunsAux : Nat → List Char → List (List Char)
  | 0, _ => []
  | _, [] => []
  | fuel + 1, c :: rest =>
    if c.isDigit then
      let run := rest.takeWhile (fun d => d.isDigit || jsSpace d)
      (c :: run) :: priceRunsAux fuel (rest.drop run.length)
    else
      priceRunsAux fuel rest

def priceRuns (cs : List Char) : List (List Char) :=
  priceRunsAux cs.length cs

/-- `parseInt(match.replace(/\s/g, ""))`: the match starts with a digit, so
after removing spaces the whole run is digits. -/
def digitsToNat (cs : List Char) : Nat :=
  cs.foldl (fun n c => n * 10 + (c.toNat - '0'.toNat)) 0

/-- The source loop over regex matches: take the first parsed number `num`
with `num > 0 && num < 100000000`. -/
def parsePriceText (s : String) : Option Nat :=
  (priceRuns s.data).findSome? fun run =>
    let n := digitsToNat (run.filter Char.isDigit)
    if 0 < n ∧ n < 100000000 then some n else none

/-! ### Search extraction (wb-client.js `search`) -/

/-- One rendered `.product-card`, abstracted to the fields the page-evaluate
extraction reads. The three price fields are the text contents of the
`wallet-price`, `final-price` and generic `price` selector hits. -/
structure DomCard where
  id : Option String
  link : Option String
  name : Option String
  brand : Option String
  walletPrice : Option String
  finalPrice : Option String
  anyPrice : Option String
  image : Option String
deriving DecidableEq

/-- `walletPrice || finalPrice || anyPrice`, then trim and parse the text.
Models the `priceEl` selection and the `priceNum` loop. -/
def cardPriceNum (c : DomCard) : Option Nat :=
  match c.walletPrice <|> c.finalPrice <|> c.anyPrice with
  | none => none
  | some t => parsePriceText (jsTrim t)

/-- `brand.replace(/\s*\/.*/, "")`: cut at the first slash together with the
whitespace run immediately before it (rendered brand labels are one line). -/
def stripBrandSuffix (s : String) : String :=
  let pre := s.data.takeWhile (fun c => c ≠ '/')
  if pre.length = s.data.length then s
  else String.mk (pre.reverse.dropWhile jsSpace).reverse

/-- A search result record (`priceFormatted` and locale formatting elided). -/
structure SearchProduct where
  id : Option String
  url : Option String
  name : Option String
  brand : Option String
  price : Option ℚ
  image : Option String
deriving DecidableEq

/-- The per-card mapping inside `page.evaluate`. -/
def extractCard (c : DomCard) : SearchProduct :=
  { id := c.id
    url := c.link
    name := c.name.map jsTrim
    brand := (c.brand.map jsTrim).map stripBrandSuffix
    price := (cardPriceNum c).map (fun n => (n : ℚ))
    image := c.image }

/-! ### Price/stock descriptor (the `u-card/cards/v4` endpoints) -/

structure PriceInfo where
  basic : Option ℚ
  product : Option ℚ
deriving DecidableEq

structure ApiSize where
  name : Option String
  price : Option PriceInfo
deriving DecidableEq

/-- One entry of a descriptor `products` array (pass-through fields that no
claim mentions are elided; `id` is the string form of the numeric id, as used
for JS object keying). -/
structure ApiProduct where
  id : String
  name : Option String
  brand : Option String
  sizes : Option (List ApiSize)
deriving DecidableEq

structure DescriptorResp where
  products : Option (List ApiProduct)
deriving DecidableEq

/-- `p.sizes?.[0]?.price?.product` -/
def sizeProductPriceRaw (p : ApiProduct) : Option ℚ :=
  ((p.sizes.bind List.head?).bind (·.price)).bind (·.product)

/-- `p.sizes?.[0]?.price?.basic` -/
def sizeBasicRaw (p : ApiProduct) : Option ℚ :=
  ((p.sizes.bind List.head?).bind (·.price)).bind (·.basic)

/-- One step of building `priceMap`: `if (price) priceMap[p.id] = price / 100`.
Prepending models JS object overwrite (a later entry shadows an earlier one
under `List.lookup`). -/
def priceStep (m : List (String × ℚ)) (p : ApiProduct) : List (String × ℚ) :=
  match sizeProductPriceRaw p with
  | some pr => if pr ≠ 0 then (p.id, pr / 100) :: m else m
  | none => m

def buildPriceMap (ps : List ApiProduct) : List (String × ℚ) :=
  ps.foldl priceStep []

/-- The merge loop body: `if (!product.price && priceMap[product.id])` then
overwrite `product.price` with the mapped value. -/
def mergePrices (priceMap : List (String × ℚ)) (p : SearchProduct) : SearchProduct :=
  if jsTruthyQ p.price then p
  else
    match p.id.bind (fun i => priceMap.lookup i) with
    | some v => if v ≠ 0 then { p with price := some v } else p
    | none => p

/-- The API price backfill pass of `search`: run only when some extracted
product lacks a truthy price and has a truthy id; a failed request or a
response without a `products` field leaves the list untouched. -/
def backfill (api : Except Unit DescriptorResp) (products : List SearchProduct) :
    List SearchProduct :=
  let withoutPrice := products.filter (fun p => !jsTruthyQ p.price && jsTruthyStr p.id)
  if 0 < withoutPrice.length then
    match api with
    | .error _ => products
    | .ok data =>
      match data.products with
      | some aps => products.map (mergePrices (buildPriceMap aps))
      | none => products
  else products

/-- The destructured `options` of `WBClient.search`. -/
structure SearchOptions where
  sort : Option String := none
  page : Option ℚ := none
  priceMin : Option ℚ := none
  priceMax : Option ℚ := none
  limit : Option Nat := none
deriving DecidableEq

/-- The `priceU` range token of the search URL: appended only when
`priceMin || priceMax` is truthy; `some (m, M)` renders as `&priceU=m%3BM`. -/
def priceParam (priceMin priceMax : Option ℚ) : Option (ℚ × ℚ) :=
  if jsTruthyQ priceMin || jsTruthyQ priceMax then
    some (jsOrQ priceMin 0 * 100, jsOrQ priceMax 999999999 * 100)
  else none

/-- `WBClient.search`. `dom = none` models no `.product-card` appearing within
the wait timeout (the caught `waitForSelector` rejection); `dom = some cards`
is the rendered card list. `api` is the backfill descriptor request outcome. -/
def search (_query : String) (opts : SearchOptions) (dom : Option (List DomCard))
    (api : Except Unit DescriptorResp) : List SearchProduct :=
  let limit := opts.limit.getD 20
  match dom with
  | none => []
  | some cards => backfill api ((cards.take limit).map extractCard)

/-! ### Product details (wb-client.js `getProductDetails`) -/

/-- One `options` entry of the basket `card.json` content descriptor. -/
structure CardOption where
  name : Option String
  value : Option String
deriving DecidableEq

/-- A truthy basket `card.json` payload. -/
structure CardData where
  description : Option String
  options : Option (List CardOption)
deriving DecidableEq

/-- `Math.floor(productId / 100000)` — the coarse path bucket. -/
def volOf (pid : Nat) : Nat := pid / 100000

/-- `Math.floor(productId / 1000)` — the fine path bucket. -/
def partOf (pid : Nat) : Nat := pid / 1000

/-- `b.toString().padStart(2, "0")` -/
def padStart2 (b : Nat) : String :=
  let s := toString b
  if s.length < 2 then "0" ++ s else s

/-- The basket CDN URL probed for host number `b`. -/
def cardUrl (b : Nat) (pid : Nat) : String :=
  "https://basket-" ++ padStart2 b ++ ".wbbasket.ru/vol" ++ toString (volOf pid) ++
    "/part" ++ toString (partOf pid) ++ "/" ++ toString pid ++ "/info/ru/card.json"

/-- The basket probe loop `for (let b = 1; b <= 36; b++)`: one request per
host number; a thrown or falsy response (`oracle b = none`) moves on to the
next host; the first truthy payload breaks the loop. Fuel-structured (fuel 37
covers hosts 1..36) so it evaluates by `rfl`. -/
def resolveCardAux (oracle : Nat → Option CardData) : Nat → Nat → Option CardData
  | 0, _ => none
  | fuel + 1, b =>
    if b ≤ 36 then
      match oracle b with
      | some c => some c
      | none => resolveCardAux oracle fuel (b + 1)
    else none

def resolveCard (oracle : Nat → Option CardData) : Option CardData :=
  resolveCardAux oracle 37 1

/-- `detailData?.products?.[0]` -/
def firstProduct (detailData : Option DescriptorResp) : Option ApiProduct :=
  (detailData.bind (·.products)).bind List.head?

/-- `raw ? raw / 100 : null` — kopek-to-ruble conversion of a descriptor
price field, guarded by JS truthiness. -/
def convPrice (raw : Option ℚ) : Option ℚ :=
  match raw with
  | some v => if v ≠ 0 then some (v / 100) else none
  | none => none

/-- The trailing `if (result.priceBasic && result.priceFinal)` block. -/
def discountOf : Option ℚ → Option ℚ → Option ℤ
  | some b, some f => if b ≠ 0 ∧ f ≠ 0 then some (round ((1 - f / b) * 100)) else none
  | _, _ => none

/-- The assembled detail record (fields no claim mentions elided). -/
structure ProductDetails where
  id : Nat
  name : Option String
  brand : Option String
  priceBasic : Option ℚ
  priceFinal : Option ℚ
  discount : Option ℤ
  description : Option String
  characteristics : List CardOption
  url : String
deriving DecidableEq

/-- The `result` object built from the descriptor product and the (possibly
missing) content descriptor. -/
def mkDetail (pid : Nat) (product : ApiProduct) (cardData : Option CardData) :
    ProductDetails :=
  let priceBasic := convPrice (sizeBasicRaw product)
  let priceFinal := convPrice (sizeProductPriceRaw product)
  { id := pid
    name := product.name
    brand := product.brand
    priceBasic := priceBasic
    priceFinal := priceFinal
    discount := discountOf priceBasic priceFinal
    description := jsOrNullStr (cardData.bind (·.description))
    characteristics := (cardData.bind (·.options)).getD []
    url := "https://www.wildberries.ru/catalog/" ++ toString pid ++ "/detail.aspx" }

/-- `WBClient.getProductDetails`. `detailData = none` models a failed detail
request (the catch leaves `detailData` null); `cardOracle` gives each basket
host's response. Throws (`Except.error`) only when no product is present. -/
def getProductDetails (pid : Nat) (detailData : Option DescriptorResp)
    (cardOracle : Nat → Option CardData) : Except String ProductDetails :=
  let cardData := resolveCard cardOracle
  match firstProduct detailData with
  | none => .error ("Product " ++ toString pid ++ " not found")
  | some product => .ok (mkDetail pid product cardData)

/-! ### Multi-product list (wb-client.js `getProductsList`) -/

/-- One mapped entry of `getProductsList` (pass-through fields elided). -/
structure ListItem where
  id : String
  name : Option String
  brand : Option String
  priceBasic : Option ℚ
  priceFinal : Option ℚ
  url : String
deriving DecidableEq

/-- `data.products?.map(...) || []`. The request URL is `listUrl` below; the
descriptor response is passed in as `data`. -/
def getProductsList (data : DescriptorResp) : List ListItem :=
  match data.products with
  | none => []
  | some ps =>
    ps.map fun p =>
      { id := p.id
        name := p.name
        brand := p.brand
        priceBasic := convPrice (sizeBasicRaw p)
        priceFinal := convPrice (sizeProductPriceRaw p)
        url := "https://www.wildberries.ru/catalog/" ++ p.id ++ "/detail.aspx" }

/-! ### Destination state (wb-client.js constructor and `setDestination`) -/

/-- The mutable client state the claims touch: the active zone code string. -/
structure WBState where
  dest : String
deriving DecidableEq

/-- The constructor: `this.dest = "-1255987"` (default destination, Moscow). -/
def initState : WBState := { dest := "-1255987" }

/-- The geo lookup payload (`get-geo-info` response). -/
structure GeoData where
  address : Option String
  destinations : Option (List Int)
deriving DecidableEq

/-- The value returned by `setDestination`. -/
inductive SetDestResult where
  | ok (address : Option String) (dest : String) (destinations : List Int)
  | failed (error : String)
deriving DecidableEq

/-- `WBClient.setDestination`. `geo` is the lookup outcome (`.error` models a
thrown request caught by the surrounding try). Returns the updated state and
the result object; it never throws. -/
def setDestination (st : WBState) (geo : Except Unit GeoData) :
    WBState × SetDestResult :=
  match geo with
  | .error _ => (st, .failed "Could not find destination")
  | .ok gd =>
    match gd.destinations with
    | some (d :: ds) =>
      let newDest := toString ((d :: ds).getLast (List.cons_ne_nil d ds))
      ({ dest := newDest }, .ok gd.address newDest (d :: ds))
    | _ => (st, .failed "Could not find destination")

/-! ### Request URLs embedding the zone code -/

/-- The `v4/detail` request URL of `getProductDetails`. -/
def detailUrl (dest : String) (pid : Nat) : String :=
  "https://www.wildberries.ru/__internal/u-card/cards/v4/detail?appType=1&curr=rub&dest=" ++
    dest ++ "&spp=30&lang=ru&nm=" ++ toString pid

/-- The `v4/list` request URL, used verbatim both by `getProductsList` and by
the `search` price backfill (the two source literals are identical). -/
def listUrl (dest : String) (ids : String) : String :=
  "https://www.wildberries.ru/__internal/u-card/cards/v4/list?appType=1&curr=rub&dest=" ++
    dest ++ "&spp=30&lang=ru&nm=" ++ ids

/-! ### Filters (wb-client.js `getFilters`) -/

/-- The two return shapes of `getFilters`: the wait-timeout shape carrying an
empty `filters` array, and the full shape (fixed sort-option and
url-parameter tables elided). -/
inductive FiltersResult where
  | noProducts
  | found (query : String) (availableFilters : List String)
deriving DecidableEq

/-- `WBClient.getFilters`. `dom = none` models no `.product-card` within the
wait timeout; `some btns` gives the filter buttons' text contents.
`[...new Set(filters)]` keeps first occurrences (`List.eraseDups`). -/
def getFilters (query : String) (dom : Option (List (Option String))) :
    FiltersResult :=
  match dom with
  | none => .noProducts
  | some btns =>
    let filters := ((btns.map (fun t => t.map jsTrim)).filterMap id).filter
      (fun s => s ≠ "")
    .found query filters.eraseDups

/-! ### Tool dispatcher (src/index.js, CallToolRequestSchema handler) -/

/-- The `wb_search` tool arguments. -/
structure SearchArgs where
  query : String
  sort : Option String := none
  page : Option ℚ := none
  priceMin : Option ℚ := none
  priceMax : Option ℚ := none
  limit : Option Nat := none
deriving DecidableEq

/-- `Math.min(args.limit || 20, 100)` — the effective search limit. -/
def effectiveLimit (o : Option Nat) : Nat :=
  min (jsOrNat o 20) 100

/-- The `wb_search` case of the tool dispatcher: argument defaulting and
clamping, then one `search` call. -/
def toolSearch (args : SearchArgs) (dom : Option (List DomCard))
    (api : Except Unit DescriptorResp) : List SearchProduct :=
  search args.query
    { sort := some (jsOrStr args.sort "popular")
      page := some (jsOrQ args.page 1)
      priceMin := args.priceMin
      priceMax := args.priceMax
      limit := some (effectiveLimit args.limit) }
    dom api

/-! ### HTTP JSON-RPC transport (the express server file) -/

/-- A parsed JSON-RPC request, restricted to the fields the handler reads:
the method name, the id echoed back, and — for `tools/call` — the tool name
from `params` (`none` models absent params, whose destructuring throws and
is caught as an internal error). -/
structure RpcRequest where
  method : String
  id : Option Int := none
  toolName : Option String := none
deriving DecidableEq

def knownTools : List String :=
  ["wb_search", "wb_product_details", "wb_products_list", "wb_set_destination",
   "wb_get_filters"]

/-- The result payload shapes of `handleJsonRpcRequest` (the fixed
protocol/capability metadata and the TOOLS table are constants). -/
inductive RpcResult where
  | initResult
  | toolsList
  | toolContent (text : String)
deriving DecidableEq

inductive RpcOut where
  | success (id : Option Int) (r : RpcResult)
  | failure (id : Option Int) (code : Int) (message : String)
deriving DecidableEq

/-- `handleJsonRpcRequest`. `runTool` abstracts the awaited `wbClient` call
for a known tool (its serialized text on success, the thrown message on
failure, both wrapped by the surrounding try/catch). Returns `none` exactly
for the notification that produces no response. -/
def handleJsonRpcRequest (runTool : String → Except String String)
    (req : RpcRequest) : Option RpcOut :=
  match req.method with
  | "initialize" => some (.success req.id .initResult)
  | "tools/list" => some (.success req.id .toolsList)
  | "tools/call" =>
    match req.toolName with
    | none => some (.failure req.id (-32603) "Cannot destructure params")
    | some name =>
      if name ∈ knownTools then
        match runTool name with
        | .ok text => some (.success req.id (.toolContent text))
        | .error msg => some (.failure req.id (-32603) msg)
      else some (.failure req.id (-32603) ("Unknown tool: " ++ name))
  | "notifications/initialized" => none
  | m => some (.failure req.id (-32601) ("Method not found: " ++ m))

/-- The `for (const request of requests)` loop: process in arrival order,
pushing each non-null response. -/
def processRequests (runTool : String → Except String String) :
    List RpcRequest → List RpcOut
  | [] => []
  | r :: rs =>
    match handleJsonRpcRequest runTool r with
    | some resp => resp :: processRequests runTool rs
    | none => processRequests runTool rs

/-- `req.body` of the POST handler: a single request or an ordered batch. -/
inductive HttpBody where
  | single (r : RpcRequest)
  | batch (rs : List RpcRequest)
deriving DecidableEq

/-- The three reply shapes of the POST handler: 202 with empty body, a single
JSON object, or a JSON array. -/
inductive HttpReply where
  | accepted
  | jsonOne (r : RpcOut)
  | jsonMany (rs : List RpcOut)
deriving DecidableEq

structure PostResult where
  responses : List RpcOut
  reply : HttpReply
  newSessionId : Option String
deriving DecidableEq

/-- The `POST /mcp` handler. `freshId` stands for the generated random session
id; `sessionHeader` is the incoming `Mcp-Session-Id` header; `newSessionId`
is the `Mcp-Session-Id` response header (set only on an initialize exchange
without an incoming session). -/
def postMcp (runTool : String → Except String String) (freshId : String)
    (sessionHeader : Option String) (body : HttpBody) : PostResult :=
  let requests :=
    match body with
    | .single r => [r]
    | .batch rs => rs
  let responses := processRequests runTool requests
  let newSession :=
    if requests.any (fun r => r.method == "initialize") && sessionHeader.isNone then
      some freshId
    else none
  let reply :=
    match responses with
    | [] => .accepted
    | [r] => .jsonOne r
    | rs => .jsonMany rs
  { responses := responses, reply := reply, newSessionId := newSession }

/-! ### Concrete test data used by witnesses and counterexamples -/

/-- A rendered card with a parsable wallet price. -/
def cardZ : DomCard :=
  { id := some "1", link := none, name := none, brand := none,
    walletPrice := some "100 ₽", finalPrice := none, anyPrice := none,
    image := none }

/-- A rendered card whose price text shows 1234 rubles. -/
def cardY : DomCard :=
  { id := some "7", link := none, name := none, brand := none,
    walletPrice := some "1 234 ₽", finalPrice := none, anyPrice := none,
    image := none }

/-- A rendered card without any price node. -/
def cardN : DomCard :=
  { id := some "42", link := none, name := none, brand := none,
    walletPrice := none, finalPrice := none, anyPrice := none, image := none }

/-- A descriptor product with basic price 10000 and final price 7500 kopeks. -/
def apW : ApiProduct :=
  { id := "5", name := none, brand := none,
    sizes := some
      [{ name := none, price := some { basic := some 10000, product := some 7500 } }] }

def respW : DescriptorResp := { products := some [apW] }

/-- The detail record assembled from `apW` with no content descriptor. -/
def detW : ProductDetails := mkDetail 5 apW none

/-- A descriptor product with final price 9900 kopeks for id 42. -/
def apY : ApiProduct :=
  { id := "42", name := none, brand := none,
    sizes := some
      [{ name := none, price := some { basic := none, product := some 9900 } }] }

def dataY : DescriptorResp := { products := some [apY] }

/-- A truthy content descriptor payload. -/
def cardW : CardData := { description := some "d", options := some [] }

/-- A basket oracle that answers only on host number 3. -/
def oracleHit : Nat → Option CardData :=
  fun b => if b = 3 then some cardW else none

/-- A trivial tool runner for protocol witnesses. -/
def rtW : String → Except String String := fun _ => .ok "t"

def reqsW : List RpcRequest :=
  [{ method := "initialize", id := some 1 }, { method := "tools/list", id := some 2 }]

/-! ### Helper lemmas -/

theorem convPrice_ne_zero {o : Option ℚ} {b : ℚ} (h : convPrice o = some b) : b ≠ 0 := by
  cases o with
  | none => simp [convPrice] at h
  | some v =>
    by_cases hv : v = 0
    · simp [convPrice, hv] at h
    · simp only [convPrice, if_pos hv, Option.some.injEq] at h
      exact h ▸ div_ne_zero hv (by norm_num)

theorem backfill_length (api : Except Unit DescriptorResp) (ps : List SearchProduct) :
    (backfill api ps).length = ps.length := by
  unfold backfill
  split
  all_goals dsimp only
  all_goals split
  all_goals first
    | rfl
    | (split
       all_goals first
         | rfl
         | simp)

theorem search_length_le (q : String) (opts : SearchOptions) (dom : Option (List DomCard))
    (api : Except Unit DescriptorResp) :
    (search q opts dom api).length ≤ opts.limit.getD 20 := by
  unfold search
  cases dom with
  | none => simp
  | some cards =>
    simp only [backfill_length, List.length_map, List.length_take]
    exact Nat.min_le_left _ _

/-! ### Claim theorems -/

/-- C2: for every detail record returned by `getProductDetails`, if both
`priceBasic` and `priceFinal` are present then `discount` equals
`round((1 - priceFinal / priceBasic) * 100)`, and if either is null then
`discount` is null. -/
theorem c2_discount_round (pid : Nat) (detailData : Option DescriptorResp)
    (cardOracle : Nat → Option CardData) (d : ProductDetails)
    (hok : getProductDetails pid detailData cardOracle = .ok d) :
    (∀ b f, d.priceBasic = some b → d.priceFinal = some f →
      d.discount = some (round ((1 - f / b) * 100))) ∧
    ((d.priceBasic = none ∨ d.priceFinal = none) → d.discount = none) := by
  unfold getProductDetails at hok
  rcases hfp : firstProduct detailData with _ | product
  · rw [hfp] at hok; simp at hok
  · rw [hfp] at hok
    simp only [Except.ok.injEq] at hok
    subst hok
    constructor
    · intro b f hb hf
      have hbB : (mkDetail pid product (resolveCard cardOracle)).priceBasic =
          convPrice (sizeBasicRaw product) := rfl
      have hfB : (mkDetail pid product (resolveCard cardOracle)).priceFinal =
          convPrice (sizeProductPriceRaw product) := rfl
      have hbne : b ≠ 0 := convPrice_ne_zero (hbB ▸ hb)
      have hfne : f ≠ 0 := convPrice_ne_zero (hfB ▸ hf)
      have hd : (mkDetail pid product (resolveCard cardOracle)).discount =
          discountOf (mkDetail pid product (resolveCard cardOracle)).priceBasic
            (mkDetail pid product (resolveCard cardOracle)).priceFinal := rfl
      rw [hd, hb, hf]
      simp [discountOf, hbne, hfne]
    · intro h
      have hd : (mkDetail pid product (resolveCard cardOracle)).discount =
          discountOf (mkDetail pid product (resolveCard cardOracle)).priceBasic
            (mkDetail pid product (resolveCard cardOracle)).priceFinal := rfl
      rcases h with h | h
      · rw [hd, h]
        rcases (mkDetail pid product (resolveCard cardOracle)).priceFinal with _ | f <;> rfl
      · rw [hd, h]
        rcases (mkDetail pid product (resolveCard cardOracle)).priceBasic with _ | b <;> rfl

/-- Witness for C2: a concrete descriptor with basic 10000 and final 7500
kopeks yields priceBasic 100, priceFinal 75 and the rounded discount. -/
theorem c2_witness :
    getProductDetails 5 (some respW) (fun _ => none) = .ok detW ∧
    detW.discount = some (round ((1 - (7500 : ℚ) / 100 / ((10000 : ℚ) / 100)) * 100)) :=
  ⟨rfl, (c2_discount_round 5 (some respW) (fun _ => none) detW rfl).1
    ((10000 : ℚ) / 100) ((7500 : ℚ) / 100) rfl rfl⟩

/-- C4: when the price/stock descriptor yields no item, `getProductDetails`
fails with a not-found error while `getProductsList` returns an empty list as
a successful result. -/
theorem c4_notfound_vs_emptylist (pid : Nat) (cardOracle : Nat → Option CardData)
    (resp : DescriptorResp) (h : resp.products = none ∨ resp.products = some []) :
    getProductDetails pid (some resp) cardOracle =
      .error ("Product " ++ toString pid ++ " not found") ∧
    getProductsList resp = [] := by
  have hfp : firstProduct (some resp) = none := by
    rcases h with h | h <;> simp [firstProduct, h]
  constructor
  · unfold getProductDetails
    rw [hfp]
  · rcases h with h | h <;> simp [getProductsList, h]

/-- Witness for C4 at id 7 with an empty descriptor products array. -/
theorem c4_witness :
    getProductDetails 7 (some { products := some [] }) (fun _ => none) =
      .error "Product 7 not found" ∧
    getProductsList { products := some [] } = [] :=
  c4_notfound_vs_emptylist 7 (fun _ => none) { products := some [] } (Or.inr rfl)

/-- C5: `setDestination` stores the last element of a nonempty zone-candidate
list as the active zone and returns the resolved address plus the candidate
list; on lookup failure or an empty candidate list it leaves the zone
unchanged and reports failure without throwing. -/
theorem c5_set_destination (st : WBState) (geo : Except Unit GeoData) :
    (∀ gd d ds, geo = .ok gd → gd.destinations = some (d :: ds) →
      (setDestination st geo).1.dest =
        toString ((d :: ds).getLast (List.cons_ne_nil d ds)) ∧
      (setDestination st geo).2 =
        .ok gd.address (toString ((d :: ds).getLast (List.cons_ne_nil d ds))) (d :: ds)) ∧
    ((geo = .error () ∨
        ∃ gd, geo = .ok gd ∧ (gd.destinations = none ∨ gd.destinations = some [])) →
      (setDestination st geo).1 = st ∧
      (setDestination st geo).2 = .failed "Could not find destination") := by
  constructor
  · intro gd d ds hgeo hdest
    subst hgeo
    simp [setDestination, hdest]
  · intro h
    rcases h with h | ⟨gd, hgeo, hd⟩
    · subst h
      exact ⟨rfl, rfl⟩
    · subst hgeo
      rcases hd with hd | hd <;> simp [setDestination, hd]

/-- Witness for C5: candidates [1, 2, 3] set the zone to "3"; a failed lookup
leaves the initial state unchanged. -/
theorem c5_witness :
    (setDestination initState
      (.ok { address := some "Msk", destinations := some [1, 2, 3] })).1.dest = "3" ∧
    (setDestination initState (.error ())).1 = initState := by
  constructor
  · have h := (c5_set_destination initState
      (.ok { address := some "Msk", destinations := some [1, 2, 3] })).1
      { address := some "Msk", destinations := some [1, 2, 3] } 1 [2, 3] rfl rfl
    exact h.1.trans rfl
  · exact ((c5_set_destination initState (.error ())).2 (Or.inl rfl)).1

/-- C6: a results page showing no product card within the wait timeout makes
`search` return an empty list and `getFilters` return the empty filter shape,
neither as an error (both functions are total and return plain values). -/
theorem c6_empty_results (q : String) (opts : SearchOptions)
    (api : Except Unit DescriptorResp) :
    search q opts none api = [] ∧ getFilters q none = .noProducts :=
  ⟨rfl, rfl⟩

/-- C10: at construction the active zone code is "-1255987", and the
descriptor request URLs of `getProductDetails`, `getProductsList` and the
`search` price backfill (all built from `detailUrl` / `listUrl`) embed that
default zone before any destination change. -/
theorem c10_default_zone :
    initState.dest = "-1255987" ∧
    (∀ pid : Nat, detailUrl initState.dest pid =
      "https://www.wildberries.ru/__internal/u-card/cards/v4/detail?appType=1&curr=rub&dest=-1255987&spp=30&lang=ru&nm=" ++
        toString pid) ∧
    (∀ ids : String, listUrl initState.dest ids =
      "https://www.wildberries.ru/__internal/u-card/cards/v4/list?appType=1&curr=rub&dest=-1255987&spp=30&lang=ru&nm=" ++
        ids) :=
  ⟨rfl, fun _ => rfl, fun _ => rfl⟩

/-- C1 (amended): for every invocation of the search tool, the effective
limit is 20 when the limit argument is absent (and also when it is zero,
which JS `||` treats as absent) and `min(limit, 100)` otherwise; the returned
list length is at most the effective limit, hence at most 100, and at most
the requested limit whenever the requested limit is positive. -/
theorem c1_amended_limit (args : SearchArgs) (dom : Option (List DomCard))
    (api : Except Unit DescriptorResp) :
    (toolSearch args dom api).length ≤ effectiveLimit args.limit ∧
    effectiveLimit args.limit ≤ 100 ∧
    (args.limit = none → effectiveLimit args.limit = 20) ∧
    (∀ n, args.limit = some n → 0 < n → (toolSearch args dom api).length ≤ n) := by
  have hlen : (toolSearch args dom api).length ≤ effectiveLimit args.limit := by
    have h := search_length_le args.query
      { sort := some (jsOrStr args.sort "popular")
        page := some (jsOrQ args.page 1)
        priceMin := args.priceMin
        priceMax := args.priceMax
        limit := some (effectiveLimit args.limit) } dom api
    simpa [toolSearch] using h
  refine ⟨hlen, Nat.min_le_right _ _, ?_, ?_⟩
  · intro h
    rw [h]
    rfl
  · intro n hn hpos
    refine le_trans hlen ?_
    rw [hn]
    rcases n with _ | m
    · omega
    · calc effectiveLimit (some (m + 1)) = min (m + 1) 100 := rfl
        _ ≤ m + 1 := Nat.min_le_left _ _

/-- Counterexample for C1 as stated: a supplied limit of 0 is treated as
absent by the JS `||` default, so the effective limit becomes 20 and the
returned list (here of length 1) exceeds the requested limit 0. -/
theorem c1_counterexample :
    effectiveLimit (some 0) = 20 ∧
    (toolSearch { query := "x", limit := some 0 } (some [cardZ]) (.error ())).length = 1 ∧
    ¬ (toolSearch { query := "x", limit := some 0 } (some [cardZ]) (.error ())).length ≤ 0 :=
  ⟨rfl, rfl, by decide⟩

/-- Witness for C1 (amended): a requested limit of 150 is positive, and the
returned list length is bounded by it. -/
theorem c1_witness :
    0 < 150 ∧
    (toolSearch { query := "x", limit := some 150 } (some [cardZ]) (.error ())).length ≤ 150 :=
  ⟨by decide, (c1_amended_limit { query := "x", limit := some 150 }
    (some [cardZ]) (.error ())).2.2.2 150 rfl (by decide)⟩

/-- C9 (amended): the `priceU` token is appended exactly when at least one of
priceMin / priceMax is supplied with a nonzero (JS-truthy) value; when
appended, each truthy bound is multiplied by 100, a falsy min is replaced by
0 and a falsy max by 999999999 before the multiplication, and the two are
combined as a min;max pair. -/
theorem c9_amended_price_token (pm px : Option ℚ) :
    ((priceParam pm px).isSome = (jsTruthyQ pm || jsTruthyQ px)) ∧
    (∀ m M, priceParam pm px = some (m, M) →
      m = jsOrQ pm 0 * 100 ∧ M = jsOrQ px 999999999 * 100) ∧
    (∀ a, pm = some a → a ≠ 0 →
      priceParam pm px = some (a * 100, jsOrQ px 999999999 * 100)) ∧
    (∀ b, px = some b → b ≠ 0 →
      priceParam pm px = some (jsOrQ pm 0 * 100, b * 100)) := by
  refine ⟨?_, ?_, ?_, ?_⟩
  · unfold priceParam
    split
    · rename_i h
      simp [h]
    · rename_i h
      simp [Bool.or_eq_true] at h
      simp [h.1, h.2]
  · intro m M h
    unfold priceParam at h
    split at h
    · simp only [Option.some.injEq, Prod.mk.injEq] at h
      exact ⟨h.1.symm, h.2.symm⟩
    · simp at h
  · intro a ha hane
    subst ha
    have ht : jsTruthyQ (some a) = true := by simp [jsTruthyQ, hane]
    have hv : jsOrQ (some a) 0 = a := by simp [jsOrQ, hane]
    unfold priceParam
    rw [ht, Bool.true_or, if_pos rfl, hv]
  · intro b hb hbne
    subst hb
    have ht : jsTruthyQ (some b) = true := by simp [jsTruthyQ, hbne]
    have hv : jsOrQ (some b) 999999999 = b := by simp [jsOrQ, hbne]
    unfold priceParam
    rw [ht, Bool.or_true, if_pos rfl, hv]

/-- Counterexample for C9 as stated: priceMin is supplied as 0, yet no token
is appended because 0 is JS-falsy. -/
theorem c9_counterexample :
    priceParam (some 0) none = none ∧ (some (0 : ℚ)).isSome = true :=
  ⟨rfl, rfl⟩

/-- Witness for C9 (amended): a supplied nonzero min of 5 rubles yields the
token (500, 99999999900). -/
theorem c9_witness :
    priceParam (some 5) none = some ((5 : ℚ) * 100, (999999999 : ℚ) * 100) :=
  (c9_amended_price_token (some 5) none).2.2.1 5 rfl (by decide)

theorem resolveCardAux_none (oracle : Nat → Option CardData) :
    ∀ fuel b, (∀ i, b ≤ i → i ≤ 36 → oracle i = none) →
      resolveCardAux oracle fuel b = none := by
  intro fuel
  induction fuel with
  | zero => intro b _; rfl
  | succ fuel ih =>
    intro b h
    unfold resolveCardAux
    split
    · rename_i hb
      rw [h b (Nat.le_refl b) hb]
      exact ih (b + 1) (fun i h1 h2 => h i (by omega) h2)
    · rfl

theorem resolveCardAux_first (oracle : Nat → Option CardData) :
    ∀ fuel b0 b c, b0 ≤ b → b ≤ 36 → b - b0 < fuel → oracle b = some c →
      (∀ i, b0 ≤ i → i < b → oracle i = none) →
      resolveCardAux oracle fuel b0 = some c := by
  intro fuel
  induction fuel with
  | zero => intro b0 b c _ _ h3 _ _; omega
  | succ fuel ih =>
    intro b0 b c hb0b hble hfuel hb hnone
    unfold resolveCardAux
    rw [if_pos (le_trans hb0b hble)]
    by_cases heq : b0 = b
    · subst heq
      rw [hb]
    · have hlt : b0 < b := lt_of_le_of_ne hb0b heq
      rw [hnone b0 (Nat.le_refl b0) hlt]
      exact ih (b0 + 1) b c (by omega) hble (by omega) hb
        (fun i h1 h2 => hnone i (by omega) h2)

/-- C7: content-descriptor resolution divides the numeric id into a coarse
bucket (by 100000) and a fine bucket (by 1000), probes mirror hosts 1..36 in
order stopping at the first valid descriptor, and exhausting all hosts is not
fatal: `getProductDetails` still succeeds with description and attributes
degraded to empty. -/
theorem c7_mirror_resolution (oracle : Nat → Option CardData) :
    (∀ pid : Nat, volOf pid = pid / 100000 ∧ partOf pid = pid / 1000) ∧
    (∀ b c, 1 ≤ b → b ≤ 36 → oracle b = some c →
      (∀ i, 1 ≤ i → i < b → oracle i = none) → resolveCard oracle = some c) ∧
    ((∀ i, 1 ≤ i → i ≤ 36 → oracle i = none) →
      resolveCard oracle = none ∧
      ∀ pid resp p ps, resp.products = some (p :: ps) →
        getProductDetails pid (some resp) oracle = .ok (mkDetail pid p none) ∧
        (mkDetail pid p none).description = none ∧
        (mkDetail pid p none).characteristics = []) := by
  refine ⟨fun pid => ⟨rfl, rfl⟩, ?_, ?_⟩
  · intro b c h1 h36 hc hnone
    exact resolveCardAux_first oracle 37 1 b c h1 h36 (by omega) hc hnone
  · intro hall
    have hres : resolveCard oracle = none :=
      resolveCardAux_none oracle 37 1 (fun i h1 h2 => hall i h1 h2)
    refine ⟨hres, ?_⟩
    intro pid resp p ps hresp
    have hfp : firstProduct (some resp) = some p := by
      simp [firstProduct, hresp]
    refine ⟨?_, rfl, rfl⟩
    unfold getProductDetails
    rw [hfp, hres]

/-- Witness for C7: an oracle answering only on host 3 resolves to that
payload; the all-failing oracle resolves to none, and detail assembly on a
present product still succeeds with empty enrichment. -/
theorem c7_witness :
    resolveCard oracleHit = some cardW ∧
    resolveCard (fun _ => none) = none ∧
    getProductDetails 5 (some respW) (fun _ => none) = .ok (mkDetail 5 apW none) := by
  refine ⟨?_, ?_, ?_⟩
  · refine (c7_mirror_resolution oracleHit).2.1 3 cardW (by decide) (by decide) rfl ?_
    intro i h1 h2
    have h : i = 1 ∨ i = 2 := by omega
    rcases h with rfl | rfl <;> rfl
  · exact ((c7_mirror_resolution (fun _ => none)).2.2 (fun _ _ _ => rfl)).1
  · exact (((c7_mirror_resolution (fun _ => none)).2.2 (fun _ _ _ => rfl)).2
      5 respW apW [] rfl).1

theorem processRequests_eq_filterMap (rt : String → Except String String) :
    ∀ rs, processRequests rt rs = rs.filterMap (handleJsonRpcRequest rt) := by
  intro rs
  induction rs with
  | nil => rfl
  | cons r rs ih =>
    unfold processRequests
    rw [List.filterMap_cons]
    cases h : handleJsonRpcRequest rt r <;> simp [h, ih]

theorem handle_none_iff (rt : String → Except String String) (r : RpcRequest) :
    handleJsonRpcRequest rt r = none ↔ r.method = "notifications/initialized" := by
  unfold handleJsonRpcRequest
  split
  · rename_i h
    simp [h]
  · rename_i h
    simp [h]
  · rename_i h
    rcases r.toolName with _ | name
    · simp [h]
    · dsimp only
      split
      · rcases hrt : rt name with msg | text <;> simp [hrt, h]
      · simp [h]
  · rename_i h
    simp [h]
  · rename_i h1 h2 h3 h4
    constructor
    · intro h
      simp at h
    · intro h
      exact absurd h h4

/-- C8: for every batch POSTed to the protocol endpoint, the responses are
exactly the per-request outputs in arrival order with notification entries
omitted, and an initialize request without a session header mints a fresh
session identifier in the response headers. -/
theorem c8_batch_protocol (runTool : String → Except String String)
    (freshId : String) (reqs : List RpcRequest) :
    (postMcp runTool freshId none (.batch reqs)).responses =
      reqs.filterMap (handleJsonRpcRequest runTool) ∧
    (∀ r : RpcRequest, handleJsonRpcRequest runTool r = none ↔
      r.method = "notifications/initialized") ∧
    ((∃ r ∈ reqs, r.method = "initialize") →
      (postMcp runTool freshId none (.batch reqs)).newSessionId = some freshId) := by
  refine ⟨processRequests_eq_filterMap runTool reqs, handle_none_iff runTool, ?_⟩
  rintro ⟨r, hr, hm⟩
  have hany : reqs.any (fun r => r.method == "initialize") = true := by
    rw [List.any_eq_true]
    exact ⟨r, hr, by simp [hm]⟩
  simp [postMcp, hany]

/-- Witness for C8: the batch [initialize, tools/list] with no session header
yields two responses and a fresh session identifier. -/
theorem c8_witness :
    (postMcp rtW "mcp-abc" none (.batch reqsW)).newSessionId = some "mcp-abc" ∧
    (postMcp rtW "mcp-abc" none (.batch reqsW)).responses.length = 2 :=
  ⟨(c8_batch_protocol rtW "mcp-abc" reqsW).2.2
    ⟨{ method := "initialize", id := some 1, toolName := none }, by decide, rfl⟩, rfl⟩

theorem lookup_mem {l : List (String × ℚ)} {a : String} {v : ℚ}
    (h : l.lookup a = some v) : (a, v) ∈ l := by
  induction l with
  | nil => simp [List.lookup] at h
  | cons hd tl ih =>
    obtain ⟨k, b⟩ := hd
    rw [List.lookup] at h
    rcases hk : (a == k) with _ | _
    · rw [hk] at h
      exact List.mem_cons_of_mem _ (ih h)
    · rw [hk] at h
      simp only [Option.some.injEq] at h
      have hak : a = k := by
        have := eq_of_beq hk
        exact this
      subst hak
      subst h
      exact List.mem_cons_self _ _

theorem mem_priceFold :
    ∀ (ps : List ApiProduct) (acc : List (String × ℚ)) (x : String × ℚ),
      x ∈ ps.foldl priceStep acc →
      x ∈ acc ∨ ∃ ap ∈ ps, ap.id = x.1 ∧
        ∃ pr, sizeProductPriceRaw ap = some pr ∧ pr ≠ 0 ∧ x.2 = pr / 100 := by
  intro ps
  induction ps with
  | nil => intro acc x h; exact Or.inl h
  | cons hd tl ih =>
    intro acc x h
    rw [List.foldl_cons] at h
    rcases ih (priceStep acc hd) x h with hacc | ⟨ap, hap, hrest⟩
    · unfold priceStep at hacc
      split at hacc
      · rename_i pr hpr
        split at hacc
        · rename_i hne
          rcases List.mem_cons.mp hacc with hx | hx
          · subst hx
            exact Or.inr ⟨hd, List.mem_cons_self _ _, rfl, pr, hpr, hne, rfl⟩
          · exact Or.inl hx
        · exact Or.inl hacc
      · exact Or.inl hacc
    · exact Or.inr ⟨ap, List.mem_cons_of_mem _ hap, hrest⟩

/-- C3 (amended): descriptor-sourced raw prices are uniformly converted from
minor units by dividing by 100, while a DOM-extracted price is parsed from
the rendered text (already major units) and is not converted; in particular,
for every search item whose DOM-extracted price is falsy and whose id is a
nonempty string, a successful backfill sets its price to the descriptor map
value, and every such map value is a per-size product price divided by 100. -/
theorem c3_amended_backfill (q : String) (opts : SearchOptions)
    (cards : List DomCard) (data : DescriptorResp) (aps : List ApiProduct)
    (i : Nat) (p : SearchProduct) (pid : String) (v : ℚ)
    (hprod : data.products = some aps)
    (hi : ((cards.take (opts.limit.getD 20)).map extractCard)[i]? = some p)
    (hp : jsTruthyQ p.price = false)
    (hid : p.id = some pid) (hpid : pid ≠ "")
    (hlook : (buildPriceMap aps).lookup pid = some v) (hv : v ≠ 0) :
    (search q opts (some cards) (.ok data))[i]? = some { p with price := some v } ∧
    (∃ ap ∈ aps, ap.id = pid ∧
      ∃ pr, sizeProductPriceRaw ap = some pr ∧ pr ≠ 0 ∧ v = pr / 100) ∧
    (∀ r : ℚ, r ≠ 0 → convPrice (some r) = some (r / 100)) := by
  refine ⟨?_, ?_, ?_⟩
  · have hmem : p ∈ (cards.take (opts.limit.getD 20)).map extractCard :=
      List.getElem?_mem hi
    have hcond : (!jsTruthyQ p.price && jsTruthyStr p.id) = true := by
      rw [hp, hid]
      simp [jsTruthyStr, hpid]
    have hfilter : p ∈ ((cards.take (opts.limit.getD 20)).map extractCard).filter
        (fun p => !jsTruthyQ p.price && jsTruthyStr p.id) :=
      List.mem_filter.mpr ⟨hmem, hcond⟩
    have hlen : 0 < (((cards.take (opts.limit.getD 20)).map extractCard).filter
        (fun p => !jsTruthyQ p.price && jsTruthyStr p.id)).length :=
      List.length_pos.mpr (List.ne_nil_of_mem hfilter)
    show (backfill (.ok data) ((cards.take (opts.limit.getD 20)).map extractCard))[i]? = _
    unfold backfill
    rw [if_pos hlen]
    dsimp only
    rw [hprod]
    rw [List.getElem?_map, hi]
    simp only [Option.map_some']
    congr 1
    simp [mergePrices, hp, hid, hlook, hv]
  · have hx := lookup_mem hlook
    rcases mem_priceFold aps [] (pid, v) hx with habs | ⟨ap, hap, hid2, pr, hpr, hne, hval⟩
    · simp at habs
    · exact ⟨ap, hap, hid2, pr, hpr, hne, hval⟩
  · intro r hr
    simp [convPrice, hr]

/-- Counterexample for C3 as stated: a DOM-extracted raw price of 1234 is
kept verbatim as the reconciled price, not divided by 100, so the
minor-to-major conversion is not applied to DOM-sourced raw values. -/
theorem c3_counterexample :
    parsePriceText (jsTrim "1 234 ₽") = some 1234 ∧
    (search "q" {} (some [cardY]) (.error ())).map (fun r => r.price) =
      [some ((1234 : ℕ) : ℚ)] ∧
    ((1234 : ℚ) ≠ 1234 / 100) :=
  ⟨rfl, rfl, by norm_num⟩

/-- Witness for C3 (amended): a card without a DOM price and a descriptor
product price of 9900 kopeks backfill the item price to 9900 / 100. -/
theorem c3_witness :
    (search "x" {} (some [cardN]) (.ok dataY))[0]? =
      some { extractCard cardN with price := some ((9900 : ℚ) / 100) } :=
  (c3_amended_backfill "x" {} [cardN] dataY [apY] 0 (extractCard cardN) "42"
    ((9900 : ℚ) / 100) rfl rfl rfl rfl (by decide) rfl
    (div_ne_zero (by decide) (by decide))).1

end WB
